import Mathlib

/-!
# TrafficLight.cpp : blocking message queue and phase-cycling traffic light

A shallow embedding of `src/src/TrafficLight.cpp`.

* `MessageQueue<T>` is a `std::deque<T>` guarded by a mutex and a condition
  variable.  Both member functions hold the mutex for their whole body, so one
  call is one atomic step on the deque; the deque is a `List T` whose head is
  `front()`.  A call of `receive` on an empty deque stays suspended inside
  `_condition.wait`, which is the outcome `blocked`.
* `TrafficLight` holds `_currentPhase`, its `MessageQueue<TrafficLightPhase>`
  and the `threads` vector inherited from its base class.
* The body of the endless loop of `cycleThroughPhases` is `cycleIteration`; the
  readings of `high_resolution_clock::now()` and the outputs of `dist(gen)` are
  inputs of the model.
-/

/-! ## Data model -/

/-- Modelled from the spec: the enumeration `TrafficLightPhase` is declared in the
header `TrafficLight.h`, which is outside `src/`; the source uses exactly the two
values `TrafficLightPhase::red` and `TrafficLightPhase::green`. -/
inductive TrafficLightPhase where
  | red
  | green
  deriving DecidableEq, Repr

/-- Modelled from the spec: the class template `MessageQueue<T>` is declared in the
header `TrafficLight.h`; its data member `_queue` is a `std::deque<T>` (the source
calls `front`, `pop_front`, `emplace_back`, `empty` on it).  The members `_mtx` and
`_condition` carry no data between two calls. -/
structure MessageQueue (T : Type) where
  _queue : List T
  deriving DecidableEq, Repr

/-- Synchronisation events issued by the statements of `MessageQueue<T>::send`. -/
inductive SyncEvent where
  | lock
  | emplace_back
  | notify_one
  | unlock
  deriving DecidableEq, Repr

/-- State of one running call of `send`: the deque, whether the `lock_guard` of this
call owns `_mtx`, and the synchronisation events issued so far. -/
structure SendFrame (T : Type) where
  _queue : List T
  _mtx : Bool
  events : List SyncEvent
  deriving DecidableEq, Repr

/-- Result of a call that may suspend: `returned a` when the call returns `a`,
`blocked` when it stays suspended in `_condition.wait` (predicate false),
`undefined` when `front()` or `pop_front()` would run on an empty deque. -/
inductive Outcome (α : Type) where
  | returned (a : α)
  | blocked
  | undefined
  deriving DecidableEq, Repr

/-- One atomic step on a queue: a call `send(v)`, or a call of `receive` that returns. -/
inductive QueueStep (T : Type) where
  | send (v : T)
  | receive
  deriving DecidableEq, Repr

/-- Modelled from the spec: the class `TrafficLight` is declared in the header
`TrafficLight.h`; the source reads and writes `_currentPhase`, `_queue` and the
vector `threads` of its base class, of which only the number of started threads is
kept. -/
structure TrafficLight where
  _currentPhase : TrafficLightPhase
  _queue : MessageQueue TrafficLightPhase
  threads : Nat
  deriving DecidableEq, Repr

/-- Result of `waitForGreen` together with the values its `receive()` calls returned,
in order.  `blocked tl r` : suspended in `receive()` on the empty queue of `tl`;
`outOfFuel` : the bound on loop iterations of the model was reached. -/
inductive WaitOutcome where
  | returned (tl : TrafficLight) (received : List TrafficLightPhase)
  | blocked (tl : TrafficLight) (received : List TrafficLightPhase)
  | undefined
  | outOfFuel
  deriving DecidableEq, Repr

/-- Local variables of one running `cycleThroughPhases`: `gen` counts the values
drawn from `dist(gen)` so far; times are ticks of `high_resolution_clock`
(nanoseconds). -/
structure CycleLoop where
  gen : Nat
  previousTime : Int
  currentCycleDuration : Int
  elapsedCycleTime : Int
  deriving DecidableEq, Repr

/-! ## MessageQueue -/

namespace MessageQueue

variable {T : Type}

/-- Line 33, `std::lock_guard<std::mutex> lock(_mtx);`. -/
def lock_guard (f : SendFrame T) : SendFrame T :=
  { f with _mtx := true, events := f.events ++ [SyncEvent.lock] }

/-- Line 34, `_queue.emplace_back(msg);`. -/
def emplace_back (f : SendFrame T) (msg : T) : SendFrame T :=
  { f with _queue := f._queue ++ [msg], events := f.events ++ [SyncEvent.emplace_back] }

/-- Line 35, `_condition.notify_one();`. -/
def notify_one (f : SendFrame T) : SendFrame T :=
  { f with events := f.events ++ [SyncEvent.notify_one] }

/-- Line 36, end of scope: the destructor of the `lock_guard` releases `_mtx`. -/
def unlock (f : SendFrame T) : SendFrame T :=
  { f with _mtx := false, events := f.events ++ [SyncEvent.unlock] }

/-- The statements of `MessageQueue<T>::send` (lines 33 to 36) in program order. -/
def sendFrame (q : MessageQueue T) (msg : T) : SendFrame T :=
  unlock (notify_one (emplace_back (lock_guard ⟨q._queue, false, []⟩) msg))

/-- `void MessageQueue<T>::send(T &&msg)`. -/
def send (q : MessageQueue T) (msg : T) : MessageQueue T :=
  ⟨(sendFrame q msg)._queue⟩

/-- `std::deque::front`, undefined (`none`) on an empty deque. -/
def front (d : List T) : Option T :=
  d.head?

/-- `std::deque::pop_front`, undefined (`none`) on an empty deque. -/
def pop_front : List T → Option (List T)
  | [] => none
  | _ :: rest => some rest

/-- `T MessageQueue<T>::receive()`: `_condition.wait(lock, pred)` returns only when
`!_queue.empty()`; then the front element is moved out and popped. -/
def receive (q : MessageQueue T) : Outcome (T × MessageQueue T) :=
  if q._queue.isEmpty then Outcome.blocked
  else
    match front q._queue with
    | none => Outcome.undefined
    | some msg =>
      match pop_front q._queue with
      | none => Outcome.undefined
      | some rest => Outcome.returned (msg, ⟨rest⟩)

/-- Runs a schedule of atomic steps; the result is the final queue and the values
returned by the `receive` steps, or `none` when some `receive` step of the schedule
is not enabled where it stands (the call cannot return there). -/
def run : MessageQueue T → List (QueueStep T) → Option (MessageQueue T × List T)
  | q, [] => some (q, [])
  | q, QueueStep.send v :: rest => run (send q v) rest
  | q, QueueStep.receive :: rest =>
    match receive q with
    | Outcome.returned (v, q1) =>
      match run q1 rest with
      | some (qf, out) => some (qf, v :: out)
      | none => none
    | _ => none

/-- Values sent by the `send` steps of a schedule, in order. -/
def sentValues : List (QueueStep T) → List T
  | [] => []
  | QueueStep.send v :: rest => v :: sentValues rest
  | QueueStep.receive :: rest => sentValues rest

/-- Number of `receive` steps of a schedule. -/
def receiveCount : List (QueueStep T) → Nat
  | [] => 0
  | QueueStep.send _ :: rest => receiveCount rest
  | QueueStep.receive :: rest => receiveCount rest + 1

end MessageQueue

/-! ## TrafficLight -/

/-- The constructor `TrafficLight::TrafficLight()`: `_currentPhase = TrafficLightPhase::red;` the
queue and the thread vector are default-constructed, hence empty. -/
def TrafficLight.ctor : TrafficLight :=
  { _currentPhase := TrafficLightPhase.red, _queue := ⟨[]⟩, threads := 0 }

/-- `TrafficLightPhase TrafficLight::getCurrentPhase()`. -/
def TrafficLight.getCurrentPhase (tl : TrafficLight) : TrafficLightPhase :=
  tl._currentPhase

/-- `void TrafficLight::simulate()`: one more thread running `cycleThroughPhases` is
appended to `threads`. -/
def TrafficLight.simulate (tl : TrafficLight) : TrafficLight :=
  { tl with threads := tl.threads + 1 }

/-- The `while(true)` loop of `waitForGreen` (lines 54 to 58), at most `fuel`
iterations; `received` collects the values returned by `_queue.receive()`. -/
def TrafficLight.waitForGreenLoop :
    Nat → TrafficLight → List TrafficLightPhase → WaitOutcome
  | 0, _, _ => WaitOutcome.outOfFuel
  | fuel + 1, tl, received =>
    match MessageQueue.receive tl._queue with
    | Outcome.blocked => WaitOutcome.blocked tl received
    | Outcome.undefined => WaitOutcome.undefined
    | Outcome.returned (msg, q1) =>
      if msg = TrafficLightPhase.green then
        WaitOutcome.returned { tl with _queue := q1 } (received ++ [msg])
      else
        TrafficLight.waitForGreenLoop fuel { tl with _queue := q1 } (received ++ [msg])

/-- `void TrafficLight::waitForGreen()`.  Every iteration that does not leave the
loop pops one element, so one iteration more than the queue length is enough for
the loop either to return or to suspend.  The loop keeps no state of its own, so a
call suspended before it received anything goes on, once a value has been sent, as
`waitForGreen` on the light with the changed queue. -/
def TrafficLight.waitForGreen (tl : TrafficLight) : WaitOutcome :=
  TrafficLight.waitForGreenLoop (tl._queue._queue.length + 1) tl []

/-- `duration_cast<milliseconds>` of a tick count in nanoseconds: division that
truncates toward zero. -/
def durationCastMs (ticks : Int) : Int :=
  Int.tdiv ticks 1000000

/-- Conversion of the 64-bit `count()` to the 32-bit `int elapsedCycleTime`
(line 95): the value modulo `2^32` in the range of `int`. -/
def toInt32 (x : Int) : Int :=
  (x + 2147483648) % 4294967296 - 2147483648

/-- Lines 94 and 95: the value stored in `elapsedCycleTime`. -/
def measuredElapsed (currentTime previousTime : Int) : Int :=
  toInt32 (durationCastMs (currentTime - previousTime))

/-- Lines 85 to 87 of `cycleThroughPhases`: `startTime` is the first reading of the
clock, `dist n` the `n`-th value returned by `dist(gen)`. -/
def cycleInit (dist : Nat → Int) (startTime : Int) : CycleLoop :=
  { gen := 1, previousTime := startTime, currentCycleDuration := dist 0,
    elapsedCycleTime := 0 }

/-- One iteration of the loop of `cycleThroughPhases` (lines 91 to 104);
`currentTime` is the reading of the clock at line 94.  The write of `_currentPhase`
(line 99) and the `send` (line 100) form one step: with a single loop no other
thread writes the phase or sends. -/
def cycleIteration (dist : Nat → Int) (s : TrafficLight × CycleLoop) (currentTime : Int) :
    TrafficLight × CycleLoop :=
  let elapsedCycleTime := measuredElapsed currentTime s.2.previousTime
  if elapsedCycleTime ≥ s.2.currentCycleDuration then
    let tl1 : TrafficLight :=
      { s.1 with _currentPhase :=
          if TrafficLight.getCurrentPhase s.1 = TrafficLightPhase.red
          then TrafficLightPhase.green else TrafficLightPhase.red }
    let tl2 : TrafficLight :=
      { tl1 with _queue := MessageQueue.send tl1._queue tl1._currentPhase }
    (tl2, { gen := s.2.gen + 1, previousTime := currentTime,
            currentCycleDuration := dist s.2.gen, elapsedCycleTime := elapsedCycleTime })
  else
    (s.1, { s.2 with elapsedCycleTime := elapsedCycleTime })

/-- `void TrafficLight::cycleThroughPhases()` run for as many iterations as there
are clock readings in `clock`. -/
def TrafficLight.cycleThroughPhases (dist : Nat → Int) (tl : TrafficLight)
    (startTime : Int) (clock : List Int) : TrafficLight × CycleLoop :=
  clock.foldl (cycleIteration dist) (tl, cycleInit dist startTime)

/-- No two consecutive phases of the list are equal. -/
def noRepeat : List TrafficLightPhase → Bool
  | a :: b :: rest => a != b && noRepeat (b :: rest)
  | _ => true

/-- The other phase. -/
def TrafficLightPhase.toggle : TrafficLightPhase → TrafficLightPhase
  | TrafficLightPhase.red => TrafficLightPhase.green
  | TrafficLightPhase.green => TrafficLightPhase.red

/-- The list of `n` phases that starts with the phase other than `p` and alternates. -/
def alternation (p : TrafficLightPhase) : Nat → List TrafficLightPhase
  | 0 => []
  | n + 1 => p.toggle :: alternation p.toggle n

/-! ## Lemmas on the queue -/

namespace MessageQueue

variable {T : Type}

theorem send_queue (q : MessageQueue T) (msg : T) :
    (send q msg)._queue = q._queue ++ [msg] := rfl

theorem send_mk (l : List T) (msg : T) : send ⟨l⟩ msg = ⟨l ++ [msg]⟩ := rfl

theorem receive_nil : receive (⟨[]⟩ : MessageQueue T) = Outcome.blocked := rfl

theorem receive_cons (v : T) (rest : List T) :
    receive ⟨v :: rest⟩ = Outcome.returned (v, ⟨rest⟩) := rfl

theorem run_receive_nil (rest : List (QueueStep T)) :
    run (⟨[]⟩ : MessageQueue T) (QueueStep.receive :: rest) = none := rfl

theorem run_sends (vs : List T) (l : List T) (rest : List (QueueStep T)) :
    run ⟨l⟩ (vs.map QueueStep.send ++ rest) = run ⟨l ++ vs⟩ rest := by
  induction vs generalizing l with
  | nil => simp
  | cons v vs ih =>
    have h := ih (l ++ [v])
    simp only [List.append_assoc, List.singleton_append] at h
    simpa only [List.map_cons, List.cons_append, run, send_mk] using h

theorem run_receives (l : List T) :
    run ⟨l⟩ (List.replicate l.length QueueStep.receive) = some (⟨[]⟩, l) := by
  induction l with
  | nil => rfl
  | cons v l ih =>
    simp only [List.length_cons, List.replicate_succ, run, receive_cons]
    rw [ih]

theorem run_conservation (acts : List (QueueStep T)) :
    ∀ (l : List T) (q : MessageQueue T) (out : List T),
      run ⟨l⟩ acts = some (q, out) →
        out ++ q._queue = l ++ sentValues acts ∧ out.length = receiveCount acts := by
  induction acts with
  | nil =>
    intro l q out h
    simp only [run, Option.some.injEq, Prod.mk.injEq] at h
    obtain ⟨rfl, rfl⟩ := h
    simp [sentValues, receiveCount]
  | cons a acts ih =>
    intro l q out h
    cases a with
    | send v =>
      simp only [run, send_mk] at h
      obtain ⟨h1, h2⟩ := ih _ _ _ h
      simp only [sentValues, receiveCount]
      exact ⟨by simpa using h1, h2⟩
    | receive =>
      cases l with
      | nil => simp [run_receive_nil] at h
      | cons v l =>
        simp only [run, receive_cons] at h
        cases hr : run ⟨l⟩ acts with
        | none => simp [hr] at h
        | some r =>
          obtain ⟨qf, o⟩ := r
          simp only [hr, Option.some.injEq, Prod.mk.injEq] at h
          obtain ⟨rfl, rfl⟩ := h
          obtain ⟨h1, h2⟩ := ih _ _ _ hr
          simp only [sentValues, receiveCount]
          exact ⟨by simpa using h1, by simpa using h2⟩

end MessageQueue

/-! ## Lemmas on the traffic light -/

namespace TrafficLight

open TrafficLightPhase

theorem waitForGreenLoop_reds (reds : List TrafficLightPhase) :
    ∀ (fuel : Nat) (p : TrafficLightPhase) (rest received : List TrafficLightPhase) (n : Nat),
      (∀ x ∈ reds, x = red) → reds.length < fuel →
      waitForGreenLoop fuel ⟨p, ⟨reds ++ green :: rest⟩, n⟩ received
        = WaitOutcome.returned ⟨p, ⟨rest⟩, n⟩ (received ++ reds ++ [green]) := by
  induction reds with
  | nil =>
    intro fuel p rest received n _ hf
    cases fuel with
    | zero => omega
    | succ f => simp [waitForGreenLoop, MessageQueue.receive_cons]
  | cons a reds ih =>
    intro fuel p rest received n hreds hf
    cases fuel with
    | zero => omega
    | succ f =>
      have ha : a = red := hreds a (by simp)
      subst ha
      have hrest : ∀ x ∈ reds, x = red := fun x hx => hreds x (by simp [hx])
      have hlen : reds.length < f := by simpa using hf
      have h := ih f p rest (received ++ [red]) n hrest hlen
      simp only [List.cons_append, waitForGreenLoop, MessageQueue.receive_cons]
      simpa using h

theorem waitForGreenLoop_all_red (reds : List TrafficLightPhase) :
    ∀ (fuel : Nat) (p : TrafficLightPhase) (received : List TrafficLightPhase) (n : Nat),
      (∀ x ∈ reds, x = red) → reds.length < fuel →
      waitForGreenLoop fuel ⟨p, ⟨reds⟩, n⟩ received
        = WaitOutcome.blocked ⟨p, ⟨[]⟩, n⟩ (received ++ reds) := by
  induction reds with
  | nil =>
    intro fuel p received n _ hf
    cases fuel with
    | zero => omega
    | succ f => simp [waitForGreenLoop, MessageQueue.receive_nil]
  | cons a reds ih =>
    intro fuel p received n hreds hf
    cases fuel with
    | zero => omega
    | succ f =>
      have ha : a = red := hreds a (by simp)
      subst ha
      have hrest : ∀ x ∈ reds, x = red := fun x hx => hreds x (by simp [hx])
      have hlen : reds.length < f := by simpa using hf
      have h := ih f p (received ++ [red]) n hrest hlen
      simp only [waitForGreenLoop, MessageQueue.receive_cons]
      simpa using h

theorem split_first_green (q : List TrafficLightPhase) (h : green ∈ q) :
    ∃ reds rest, q = reds ++ green :: rest ∧ ∀ x ∈ reds, x = red := by
  induction q with
  | nil => simp at h
  | cons a q ih =>
    cases a with
    | green => exact ⟨[], q, rfl, by simp⟩
    | red =>
      have hq : green ∈ q := by simpa using h
      obtain ⟨reds, rest, hsplit, hreds⟩ := ih hq
      refine ⟨red :: reds, rest, by simp [hsplit], ?_⟩
      intro x hx
      rcases List.mem_cons.mp hx with hx | hx
      · exact hx
      · exact hreds x hx

theorem waitForGreenLoop_fuel (tl : TrafficLight) (fuel : Nat)
    (h : tl._queue._queue.length < fuel) :
    waitForGreenLoop fuel tl [] = waitForGreen tl := by
  obtain ⟨p, ⟨q⟩, n⟩ := tl
  unfold waitForGreen
  by_cases hmem : green ∈ q
  · obtain ⟨reds, rest, hsplit, hreds⟩ := split_first_green q hmem
    subst hsplit
    have hlen : reds.length < (reds ++ green :: rest).length := by simp
    rw [waitForGreenLoop_reds reds fuel p rest [] n hreds (lt_trans hlen h),
      waitForGreenLoop_reds reds _ p rest [] n hreds (Nat.lt_succ_of_lt hlen)]
  · have hall : ∀ x ∈ q, x = red := by
      intro x hx
      cases x with
      | red => rfl
      | green => exact absurd hx hmem
    rw [waitForGreenLoop_all_red q fuel p [] n hall h,
      waitForGreenLoop_all_red q _ p [] n hall (Nat.lt_succ_self _)]

end TrafficLight

theorem toggle_ne (p : TrafficLightPhase) : p.toggle ≠ p := by
  cases p <;> decide

theorem toggle_toggle (p : TrafficLightPhase) : p.toggle.toggle = p := by
  cases p <;> rfl

theorem alternation_length (n : Nat) : ∀ p, (alternation p n).length = n := by
  induction n with
  | zero => intro p; rfl
  | succ n ih => intro p; simp [alternation, ih]

theorem noRepeat_alternation (n : Nat) : ∀ p, noRepeat (alternation p n) = true := by
  induction n with
  | zero => intro p; rfl
  | succ n ih =>
    intro p
    cases n with
    | zero => rfl
    | succ m =>
      have h := ih p.toggle
      simp only [alternation] at h ⊢
      simp only [noRepeat, Bool.and_eq_true, h, and_true]
      cases p <;> decide

theorem alternation_getElem (n : Nat) :
    ∀ (p : TrafficLightPhase) (i : Nat), i < n →
      (alternation p n)[i]? = some (if i % 2 = 0 then p.toggle else p) := by
  induction n with
  | zero => intro p i h; omega
  | succ n ih =>
    intro p i h
    cases i with
    | zero => simp [alternation]
    | succ j =>
      have hj : j < n := by omega
      simp only [alternation, List.getElem?_cons_succ, ih p.toggle j hj, toggle_toggle]
      rcases Nat.mod_two_eq_zero_or_one j with h0 | h1
      · have : (j + 1) % 2 = 1 := by omega
        simp [h0, this]
      · have : (j + 1) % 2 = 0 := by omega
        simp [h1, this]

theorem cycleIteration_flip (dist : Nat → Int) (s : TrafficLight × CycleLoop) (currentTime : Int)
    (h : s.2.currentCycleDuration ≤ measuredElapsed currentTime s.2.previousTime) :
    cycleIteration dist s currentTime
      = (⟨s.1._currentPhase.toggle, ⟨s.1._queue._queue ++ [s.1._currentPhase.toggle]⟩,
            s.1.threads⟩,
          ⟨s.2.gen + 1, currentTime, dist s.2.gen,
            measuredElapsed currentTime s.2.previousTime⟩) := by
  obtain ⟨⟨p, q, n⟩, loop⟩ := s
  simp only [cycleIteration, ge_iff_le] at h ⊢
  rw [if_pos h]
  cases p <;> rfl

theorem cycleIteration_wait (dist : Nat → Int) (s : TrafficLight × CycleLoop) (currentTime : Int)
    (h : measuredElapsed currentTime s.2.previousTime < s.2.currentCycleDuration) :
    cycleIteration dist s currentTime
      = (s.1, ⟨s.2.gen, s.2.previousTime, s.2.currentCycleDuration,
            measuredElapsed currentTime s.2.previousTime⟩) := by
  simp only [cycleIteration, ge_iff_le]
  rw [if_neg (not_le.mpr h)]

theorem foldl_cycleIteration (dist : Nat → Int) (clock : List Int) :
    ∀ s : TrafficLight × CycleLoop, ∃ k, k ≤ clock.length ∧
      (clock.foldl (cycleIteration dist) s).1
        = ⟨TrafficLightPhase.toggle^[k] s.1._currentPhase,
            ⟨s.1._queue._queue ++ alternation s.1._currentPhase k⟩, s.1.threads⟩ := by
  induction clock with
  | nil => intro s; exact ⟨0, le_refl _, by simp [alternation]⟩
  | cons t clock ih =>
    intro s
    obtain ⟨k, hk, hres⟩ := ih (cycleIteration dist s t)
    rcases le_or_lt s.2.currentCycleDuration (measuredElapsed t s.2.previousTime) with h | h
    · refine ⟨k + 1, by simpa using hk, ?_⟩
      rw [List.foldl_cons, hres, cycleIteration_flip dist s t h]
      simp [alternation, Function.iterate_succ_apply]
    · refine ⟨k, by simp; omega, ?_⟩
      rw [List.foldl_cons, hres, cycleIteration_wait dist s t h]

theorem foldl_cycleIteration_duration (dist : Nat → Int)
    (hdist : ∀ n, 4000 ≤ dist n ∧ dist n ≤ 6000) (clock : List Int) :
    ∀ s : TrafficLight × CycleLoop,
      (4000 ≤ s.2.currentCycleDuration ∧ s.2.currentCycleDuration ≤ 6000) →
      4000 ≤ (clock.foldl (cycleIteration dist) s).2.currentCycleDuration ∧
        (clock.foldl (cycleIteration dist) s).2.currentCycleDuration ≤ 6000 := by
  induction clock with
  | nil => intro s hs; exact hs
  | cons t clock ih =>
    intro s hs
    rw [List.foldl_cons]
    apply ih
    rcases le_or_lt s.2.currentCycleDuration (measuredElapsed t s.2.previousTime) with h | h
    · rw [cycleIteration_flip dist s t h]
      exact hdist _
    · rw [cycleIteration_wait dist s t h]
      exact hs

theorem foldl_cycleIteration_no_flip (dist : Nat → Int) (clock : List Int) :
    ∀ s : TrafficLight × CycleLoop,
      (∀ t ∈ clock, measuredElapsed t s.2.previousTime < s.2.currentCycleDuration) →
      (clock.foldl (cycleIteration dist) s).1 = s.1 ∧
      (clock.foldl (cycleIteration dist) s).2.gen = s.2.gen ∧
      (clock.foldl (cycleIteration dist) s).2.previousTime = s.2.previousTime ∧
      (clock.foldl (cycleIteration dist) s).2.currentCycleDuration
        = s.2.currentCycleDuration := by
  induction clock with
  | nil => intro s _; exact ⟨rfl, rfl, rfl, rfl⟩
  | cons t clock ih =>
    intro s hs
    have ht : measuredElapsed t s.2.previousTime < s.2.currentCycleDuration :=
      hs t (by simp)
    have hstep := cycleIteration_wait dist s t ht
    have hrest : ∀ u ∈ clock,
        measuredElapsed u (cycleIteration dist s t).2.previousTime
          < (cycleIteration dist s t).2.currentCycleDuration := by
      intro u hu
      rw [hstep]
      exact hs u (by simp [hu])
    obtain ⟨h1, h2, h3, h4⟩ := ih (cycleIteration dist s t) hrest
    rw [List.foldl_cons]
    have e1 : (cycleIteration dist s t).1 = s.1 := by rw [hstep]
    have e2 : (cycleIteration dist s t).2.gen = s.2.gen := by rw [hstep]
    have e3 : (cycleIteration dist s t).2.previousTime = s.2.previousTime := by rw [hstep]
    have e4 : (cycleIteration dist s t).2.currentCycleDuration = s.2.currentCycleDuration := by
      rw [hstep]
    exact ⟨h1.trans e1, h2.trans e2, h3.trans e3, h4.trans e4⟩

theorem toInt32_of_range (x : Int) (h0 : 0 ≤ x) (h1 : x < 2147483648) : toInt32 x = x := by
  unfold toInt32
  omega

theorem measuredElapsed_of_range (currentTime previousTime : Int)
    (h0 : 0 ≤ currentTime - previousTime)
    (h1 : currentTime - previousTime < 2147483648000000) :
    measuredElapsed currentTime previousTime = (currentTime - previousTime) / 1000000 := by
  unfold measuredElapsed durationCastMs
  rw [Int.tdiv_eq_ediv h0 (by norm_num)]
  apply toInt32_of_range
  · exact Int.ediv_nonneg h0 (by norm_num)
  · omega

/-! ## Properties of `MessageQueue` -/

/-- C1 (FIFO order): starting from an empty queue, `send(v1) … send(vN)` followed by
`N` calls of `receive` is a schedule in which every `receive` returns; the values
returned are `v1 … vN` in that order and the queue is empty afterwards. -/
theorem messageQueue_fifo_order {T : Type} (vs : List T) :
    MessageQueue.run (⟨[]⟩ : MessageQueue T)
        (vs.map QueueStep.send ++ List.replicate vs.length QueueStep.receive)
      = some (⟨[]⟩, vs) := by
  rw [MessageQueue.run_sends, List.nil_append, MessageQueue.run_receives]

/-- C2 (no loss, no duplication): for every schedule of atomic `send(v)` steps and
returning `receive` steps run from the empty queue, the values received so far
followed by the queue contents are exactly the values sent so far; so the multiset
received plus the multiset queued is the multiset sent, the number of values
received is the number of `receive` steps, and once the queue is drained the number
of receives equals the number of sends. -/
theorem messageQueue_no_loss_no_duplication {T : Type} (acts : List (QueueStep T))
    (q : MessageQueue T) (out : List T)
    (h : MessageQueue.run (⟨[]⟩ : MessageQueue T) acts = some (q, out)) :
    out ++ q._queue = MessageQueue.sentValues acts ∧
    (out : Multiset T) + (q._queue : Multiset T) = (MessageQueue.sentValues acts : Multiset T) ∧
    out.length = MessageQueue.receiveCount acts ∧
    (q._queue = [] →
      MessageQueue.receiveCount acts = (MessageQueue.sentValues acts).length) := by
  obtain ⟨h1, h2⟩ := MessageQueue.run_conservation acts [] q out h
  rw [List.nil_append] at h1
  refine ⟨h1, ?_, h2, ?_⟩
  · rw [Multiset.coe_add, h1]
  · intro hq
    rw [← h2, ← h1, hq, List.append_nil]

/-- Witness of C2 on the schedule send 1, send 2, receive, send 3. -/
theorem messageQueue_no_loss_no_duplication_witness :
    MessageQueue.run (⟨[]⟩ : MessageQueue Nat)
        [QueueStep.send 1, QueueStep.send 2, QueueStep.receive, QueueStep.send 3]
      = some (⟨[2, 3]⟩, [1]) ∧
    ([1] ++ (⟨[2, 3]⟩ : MessageQueue Nat)._queue
        = MessageQueue.sentValues
            [QueueStep.send 1, QueueStep.send 2, QueueStep.receive, QueueStep.send 3] ∧
      (([1] : List Nat) : Multiset Nat) + ((⟨[2, 3]⟩ : MessageQueue Nat)._queue : Multiset Nat)
        = (MessageQueue.sentValues
            [QueueStep.send 1, QueueStep.send 2, QueueStep.receive, QueueStep.send 3] :
              Multiset Nat) ∧
      ([1] : List Nat).length
        = MessageQueue.receiveCount
            [QueueStep.send 1, QueueStep.send 2, QueueStep.receive, QueueStep.send 3] ∧
      ((⟨[2, 3]⟩ : MessageQueue Nat)._queue = [] →
        MessageQueue.receiveCount
            [QueueStep.send 1, QueueStep.send 2, QueueStep.receive, QueueStep.send 3]
          = (MessageQueue.sentValues
              [QueueStep.send 1, QueueStep.send 2, QueueStep.receive,
                QueueStep.send 3]).length)) :=
  ⟨by decide, messageQueue_no_loss_no_duplication _ _ _ (by decide)⟩

/-- C3 (blocking contract of `receive`): `receive` stays blocked exactly when the
deque is empty and returns exactly when it is not; `front()` and `pop_front()` never
run on an empty deque; a returned value is the front element and the queue left
behind is the old one without that element; and in every schedule run from an empty
queue in which a `receive` returns, some `send` step stands before it. -/
theorem messageQueue_receive_blocking_contract {T : Type} (q : MessageQueue T) :
    (MessageQueue.receive q = Outcome.blocked ↔ q._queue = []) ∧
    (q._queue ≠ [] ↔ ∃ v q1, MessageQueue.receive q = Outcome.returned (v, q1)) ∧
    MessageQueue.receive q ≠ Outcome.undefined ∧
    (∀ v q1, MessageQueue.receive q = Outcome.returned (v, q1) →
      q._queue = v :: q1._queue) ∧
    (∀ (before : List (QueueStep T)) (r : MessageQueue T × List T),
      q._queue = [] →
      MessageQueue.run q (before ++ [QueueStep.receive]) = some r →
      ∃ v, QueueStep.send v ∈ before) := by
  obtain ⟨l⟩ := q
  cases l with
  | nil =>
    refine ⟨by simp [MessageQueue.receive_nil], ?_, by simp [MessageQueue.receive_nil],
      by simp [MessageQueue.receive_nil], ?_⟩
    · simp [MessageQueue.receive_nil]
    · intro before r _ hrun
      cases before with
      | nil => simp [MessageQueue.run_receive_nil] at hrun
      | cons a rest =>
        cases a with
        | send v => exact ⟨v, by simp⟩
        | receive => simp [MessageQueue.run_receive_nil] at hrun
  | cons v rest =>
    refine ⟨by simp [MessageQueue.receive_cons], ?_, by simp [MessageQueue.receive_cons],
      ?_, ?_⟩
    · simp [MessageQueue.receive_cons]
    · intro w q1 h
      simp only [MessageQueue.receive_cons, Outcome.returned.injEq, Prod.mk.injEq] at h
      obtain ⟨rfl, rfl⟩ := h
      rfl
    · intro before r hq
      simp at hq

/-- Witness of C3: on the empty queue `receive` is blocked and the schedule
send 7, receive returns 7; on the queue holding 7, 8 it returns the front 7. -/
theorem messageQueue_receive_blocking_contract_witness :
    MessageQueue.receive (⟨[]⟩ : MessageQueue Nat) = Outcome.blocked ∧
    (∃ v, QueueStep.send v ∈ [QueueStep.send (7 : Nat)]) ∧
    (⟨[7, 8]⟩ : MessageQueue Nat)._queue = 7 :: (⟨[8]⟩ : MessageQueue Nat)._queue :=
  ⟨(messageQueue_receive_blocking_contract (⟨[]⟩ : MessageQueue Nat)).1.mpr rfl,
    (messageQueue_receive_blocking_contract (⟨[]⟩ : MessageQueue Nat)).2.2.2.2
      [QueueStep.send 7] (⟨[]⟩, [7]) rfl (by decide),
    (messageQueue_receive_blocking_contract (⟨[7, 8]⟩ : MessageQueue Nat)).2.2.2.1
      7 ⟨[8]⟩ (by decide)⟩

/-- Counterexample to C9 as stated: on the empty queue the events of one `send` call
are not in the order lock, emplace_back, unlock, notify_one; the notification is
issued before the lock is released. -/
theorem messageQueue_send_locking_order_counterexample :
    (MessageQueue.sendFrame (⟨[]⟩ : MessageQueue TrafficLightPhase)
        TrafficLightPhase.red).events
      ≠ [SyncEvent.lock, SyncEvent.emplace_back, SyncEvent.unlock, SyncEvent.notify_one] ∧
    (MessageQueue.notify_one (MessageQueue.emplace_back
        (MessageQueue.lock_guard ⟨([] : List TrafficLightPhase), false, []⟩)
        TrafficLightPhase.red))._mtx = true := by
  decide

/-- C9 (amended, locking protocol of `send`): one call of `send` issues the events
lock, emplace_back, notify_one, unlock in this order; the value is appended to the
back of the deque while the lock is held, the notification is issued while the lock
is still held, and the lock is released when the call returns. -/
theorem messageQueue_send_locking_order {T : Type} (q : MessageQueue T) (msg : T) :
    (MessageQueue.sendFrame q msg).events
      = [SyncEvent.lock, SyncEvent.emplace_back, SyncEvent.notify_one, SyncEvent.unlock] ∧
    (MessageQueue.lock_guard (⟨q._queue, false, []⟩ : SendFrame T))._mtx = true ∧
    (MessageQueue.emplace_back (MessageQueue.lock_guard ⟨q._queue, false, []⟩) msg)._mtx
      = true ∧
    (MessageQueue.emplace_back (MessageQueue.lock_guard ⟨q._queue, false, []⟩) msg)._queue
      = q._queue ++ [msg] ∧
    (MessageQueue.notify_one
      (MessageQueue.emplace_back (MessageQueue.lock_guard ⟨q._queue, false, []⟩) msg))._mtx
      = true ∧
    (MessageQueue.sendFrame q msg)._mtx = false ∧
    (MessageQueue.send q msg)._queue = q._queue ++ [msg] :=
  ⟨rfl, rfl, rfl, rfl, rfl, rfl, rfl⟩

/-! ## Properties of `TrafficLight` -/

/-- C4 (`waitForGreen` filters on receive): when the queue holds a green value,
`waitForGreen` returns after receiving exactly the values up to and including the
first green one, all values before it being red, and the rest of the queue stays as
it was and in order; when every queued value is red it does not return but is left
suspended in `receive` on the emptied queue; whenever it returns, the last value it
received is green and all earlier ones are red; and the outcome is the one of the
loop run for any number of iterations above the queue length. -/
theorem trafficLight_waitForGreen_filters (tl : TrafficLight) :
    (TrafficLightPhase.green ∈ tl._queue._queue →
      ∃ reds rest, tl._queue._queue = reds ++ TrafficLightPhase.green :: rest ∧
        (∀ x ∈ reds, x = TrafficLightPhase.red) ∧
        TrafficLight.waitForGreen tl
          = WaitOutcome.returned { tl with _queue := ⟨rest⟩ }
              (reds ++ [TrafficLightPhase.green])) ∧
    ((∀ x ∈ tl._queue._queue, x = TrafficLightPhase.red) →
      TrafficLight.waitForGreen tl
        = WaitOutcome.blocked { tl with _queue := ⟨[]⟩ } tl._queue._queue) ∧
    (∀ tl1 received, TrafficLight.waitForGreen tl = WaitOutcome.returned tl1 received →
      ∃ reds, received = reds ++ [TrafficLightPhase.green] ∧
        ∀ x ∈ reds, x = TrafficLightPhase.red) ∧
    (∀ fuel, tl._queue._queue.length < fuel →
      TrafficLight.waitForGreenLoop fuel tl [] = TrafficLight.waitForGreen tl) := by
  have hfuel := TrafficLight.waitForGreenLoop_fuel tl
  obtain ⟨p, ⟨q⟩, n⟩ := tl
  have hgreen : TrafficLightPhase.green ∈ q →
      ∃ reds rest, q = reds ++ TrafficLightPhase.green :: rest ∧
        (∀ x ∈ reds, x = TrafficLightPhase.red) ∧
        TrafficLight.waitForGreen ⟨p, ⟨q⟩, n⟩
          = WaitOutcome.returned ⟨p, ⟨rest⟩, n⟩ (reds ++ [TrafficLightPhase.green]) := by
    intro hmem
    obtain ⟨reds, rest, hsplit, hreds⟩ := TrafficLight.split_first_green q hmem
    refine ⟨reds, rest, hsplit, hreds, ?_⟩
    subst hsplit
    have h := TrafficLight.waitForGreenLoop_reds reds
      ((reds ++ TrafficLightPhase.green :: rest).length + 1) p rest [] n hreds
      (by simp; omega)
    simpa [TrafficLight.waitForGreen] using h
  have hred : (∀ x ∈ q, x = TrafficLightPhase.red) →
      TrafficLight.waitForGreen ⟨p, ⟨q⟩, n⟩ = WaitOutcome.blocked ⟨p, ⟨[]⟩, n⟩ q := by
    intro hall
    have h := TrafficLight.waitForGreenLoop_all_red q (q.length + 1) p [] n hall (by omega)
    simpa [TrafficLight.waitForGreen] using h
  refine ⟨hgreen, hred, ?_, hfuel⟩
  intro tl1 received hret
  by_cases hmem : TrafficLightPhase.green ∈ q
  · obtain ⟨reds, rest, _, hreds, hw⟩ := hgreen hmem
    rw [hw] at hret
    simp only [WaitOutcome.returned.injEq] at hret
    exact ⟨reds, hret.2.symm, hreds⟩
  · have hall : ∀ x ∈ q, x = TrafficLightPhase.red := by
      intro x hx
      cases x with
      | red => rfl
      | green => exact absurd hx hmem
    rw [hred hall] at hret
    simp at hret

/-- Witness of C4: on the queue red, green, red the call returns after receiving
red, green and leaves red; on the queue red, red it is left blocked. -/
theorem trafficLight_waitForGreen_filters_witness :
    (TrafficLightPhase.green ∈
        (⟨TrafficLightPhase.red,
          ⟨[TrafficLightPhase.red, TrafficLightPhase.green, TrafficLightPhase.red]⟩,
          1⟩ : TrafficLight)._queue._queue ∧
      ∃ reds rest,
        (⟨TrafficLightPhase.red,
          ⟨[TrafficLightPhase.red, TrafficLightPhase.green, TrafficLightPhase.red]⟩,
          1⟩ : TrafficLight)._queue._queue = reds ++ TrafficLightPhase.green :: rest ∧
        (∀ x ∈ reds, x = TrafficLightPhase.red) ∧
        TrafficLight.waitForGreen
            ⟨TrafficLightPhase.red,
              ⟨[TrafficLightPhase.red, TrafficLightPhase.green, TrafficLightPhase.red]⟩, 1⟩
          = WaitOutcome.returned
              { (⟨TrafficLightPhase.red,
                  ⟨[TrafficLightPhase.red, TrafficLightPhase.green, TrafficLightPhase.red]⟩,
                  1⟩ : TrafficLight) with _queue := ⟨rest⟩ }
              (reds ++ [TrafficLightPhase.green])) ∧
    TrafficLight.waitForGreen
        ⟨TrafficLightPhase.green, ⟨[TrafficLightPhase.red, TrafficLightPhase.red]⟩, 1⟩
      = WaitOutcome.blocked ⟨TrafficLightPhase.green, ⟨[]⟩, 1⟩
          [TrafficLightPhase.red, TrafficLightPhase.red] :=
  ⟨⟨by decide,
      (trafficLight_waitForGreen_filters
        ⟨TrafficLightPhase.red,
          ⟨[TrafficLightPhase.red, TrafficLightPhase.green, TrafficLightPhase.red]⟩, 1⟩).1
        (by decide)⟩,
    (trafficLight_waitForGreen_filters
      ⟨TrafficLightPhase.green, ⟨[TrafficLightPhase.red, TrafficLightPhase.red]⟩, 1⟩).2.1
      (by decide)⟩

/-- C10 (bounded consumption under alternation): when no two consecutive queued
values are equal and at least two values are queued, `waitForGreen` returns after at
most two `receive()` calls: after one call when the front is green, after two calls
when the front is red; at most one red value is discarded and the values behind the
received ones stay queued. -/
theorem trafficLight_waitForGreen_bounded (tl : TrafficLight)
    (halt : noRepeat tl._queue._queue = true) (hlen : 2 ≤ tl._queue._queue.length) :
    ∃ tl1 received, TrafficLight.waitForGreen tl = WaitOutcome.returned tl1 received ∧
      received.length ≤ 2 ∧
      received.count TrafficLightPhase.red ≤ 1 ∧
      received ++ tl1._queue._queue = tl._queue._queue ∧
      (tl._queue._queue.head? = some TrafficLightPhase.green →
        received = [TrafficLightPhase.green]) ∧
      (tl._queue._queue.head? = some TrafficLightPhase.red →
        received = [TrafficLightPhase.red, TrafficLightPhase.green]) := by
  obtain ⟨p, ⟨q⟩, n⟩ := tl
  match q, halt, hlen with
  | a :: b :: rest, halt, _ =>
    cases a with
    | green =>
      refine ⟨⟨p, ⟨b :: rest⟩, n⟩, [TrafficLightPhase.green], ?_, by simp, by decide, rfl,
        fun _ => rfl, fun h => by simp at h⟩
      simp [TrafficLight.waitForGreen, TrafficLight.waitForGreenLoop,
        MessageQueue.receive_cons]
    | red =>
      cases b with
      | red => simp [noRepeat] at halt
      | green =>
        refine ⟨⟨p, ⟨rest⟩, n⟩, [TrafficLightPhase.red, TrafficLightPhase.green], ?_, by simp,
          by decide, rfl, fun h => by simp at h, fun _ => rfl⟩
        simp [TrafficLight.waitForGreen, TrafficLight.waitForGreenLoop,
          MessageQueue.receive_cons]

/-- Witness of C10 on the queue red, green, red. -/
theorem trafficLight_waitForGreen_bounded_witness :
    noRepeat [TrafficLightPhase.red, TrafficLightPhase.green, TrafficLightPhase.red] = true ∧
    2 ≤ [TrafficLightPhase.red, TrafficLightPhase.green, TrafficLightPhase.red].length ∧
    ∃ tl1 received,
      TrafficLight.waitForGreen
          ⟨TrafficLightPhase.red,
            ⟨[TrafficLightPhase.red, TrafficLightPhase.green, TrafficLightPhase.red]⟩, 1⟩
        = WaitOutcome.returned tl1 received ∧
      received.length ≤ 2 ∧
      received.count TrafficLightPhase.red ≤ 1 ∧
      received ++ tl1._queue._queue
        = [TrafficLightPhase.red, TrafficLightPhase.green, TrafficLightPhase.red] ∧
      ([TrafficLightPhase.red, TrafficLightPhase.green, TrafficLightPhase.red].head?
          = some TrafficLightPhase.green →
        received = [TrafficLightPhase.green]) ∧
      ([TrafficLightPhase.red, TrafficLightPhase.green, TrafficLightPhase.red].head?
          = some TrafficLightPhase.red →
        received = [TrafficLightPhase.red, TrafficLightPhase.green]) :=
  ⟨by decide, by decide,
    trafficLight_waitForGreen_bounded
      ⟨TrafficLightPhase.red,
        ⟨[TrafficLightPhase.red, TrafficLightPhase.green, TrafficLightPhase.red]⟩, 1⟩
      (by decide) (by decide)⟩

/-- C5 (phase alternation): every flip step of `cycleThroughPhases` (an iteration
whose measured time has reached the cycle duration) changes the current phase to
the other phase, red to green and green to red, and sends that new phase; and after
any number of iterations of a single loop the values pushed into the queue, which
stand behind the initial contents, hold no two consecutive identical phases. -/
theorem trafficLight_phase_alternation (dist : Nat → Int) (tl : TrafficLight)
    (startTime : Int) (clock : List Int) :
    (∀ (loop : CycleLoop) (currentTime : Int),
      loop.currentCycleDuration ≤ measuredElapsed currentTime loop.previousTime →
      ((cycleIteration dist (tl, loop) currentTime).1._currentPhase ≠ tl._currentPhase ∧
        (tl._currentPhase = TrafficLightPhase.red →
          (cycleIteration dist (tl, loop) currentTime).1._currentPhase
            = TrafficLightPhase.green) ∧
        (tl._currentPhase = TrafficLightPhase.green →
          (cycleIteration dist (tl, loop) currentTime).1._currentPhase
            = TrafficLightPhase.red) ∧
        (cycleIteration dist (tl, loop) currentTime).1._queue
          = MessageQueue.send tl._queue
              (cycleIteration dist (tl, loop) currentTime).1._currentPhase)) ∧
    (∃ pushed, pushed.length ≤ clock.length ∧
      (TrafficLight.cycleThroughPhases dist tl startTime clock).1._queue._queue
        = tl._queue._queue ++ pushed ∧
      noRepeat pushed = true) := by
  constructor
  · intro loop currentTime h
    rw [cycleIteration_flip dist (tl, loop) currentTime h]
    refine ⟨toggle_ne _, ?_, ?_, rfl⟩
    · intro hp
      simp only [hp]
      rfl
    · intro hp
      simp only [hp]
      rfl
  · obtain ⟨k, hk, hres⟩ := foldl_cycleIteration dist clock (tl, cycleInit dist startTime)
    refine ⟨alternation tl._currentPhase k, by rw [alternation_length]; exact hk, ?_,
      noRepeat_alternation k _⟩
    unfold TrafficLight.cycleThroughPhases
    rw [hres]

/-- Witness of C5: from the red light with the loop due at 5000 ms, the iteration
measured at 5000 ms switches to green and sends green. -/
theorem trafficLight_phase_alternation_witness :
    (⟨1, 0, 5000, 0⟩ : CycleLoop).currentCycleDuration
        ≤ measuredElapsed 5000000000 (⟨1, 0, 5000, 0⟩ : CycleLoop).previousTime ∧
    ((cycleIteration (fun _ => 5000) (TrafficLight.ctor, ⟨1, 0, 5000, 0⟩)
          5000000000).1._currentPhase ≠ TrafficLight.ctor._currentPhase ∧
      (TrafficLight.ctor._currentPhase = TrafficLightPhase.red →
        (cycleIteration (fun _ => 5000) (TrafficLight.ctor, ⟨1, 0, 5000, 0⟩)
          5000000000).1._currentPhase = TrafficLightPhase.green) ∧
      (TrafficLight.ctor._currentPhase = TrafficLightPhase.green →
        (cycleIteration (fun _ => 5000) (TrafficLight.ctor, ⟨1, 0, 5000, 0⟩)
          5000000000).1._currentPhase = TrafficLightPhase.red) ∧
      (cycleIteration (fun _ => 5000) (TrafficLight.ctor, ⟨1, 0, 5000, 0⟩)
          5000000000).1._queue
        = MessageQueue.send TrafficLight.ctor._queue
            (cycleIteration (fun _ => 5000) (TrafficLight.ctor, ⟨1, 0, 5000, 0⟩)
              5000000000).1._currentPhase) :=
  ⟨by decide,
    (trafficLight_phase_alternation (fun _ => 5000) TrafficLight.ctor 0 []).1
      ⟨1, 0, 5000, 0⟩ 5000000000 (by decide)⟩

/-- Counterexample to C6 as stated: for the newly constructed light whose loop has
its first cycle duration 5000 ms and measures 5000 ms, the first value pushed
(k = 1, odd) is green, not red. -/
theorem trafficLight_raw_queue_order_counterexample :
    1 ≤ (TrafficLight.cycleThroughPhases (fun _ => 5000) TrafficLight.ctor.simulate 0
          [5000000000]).1._queue._queue.length ∧
    (TrafficLight.cycleThroughPhases (fun _ => 5000) TrafficLight.ctor.simulate 0
        [5000000000]).1._queue._queue[1 - 1]? = some TrafficLightPhase.green ∧
    (TrafficLight.cycleThroughPhases (fun _ => 5000) TrafficLight.ctor.simulate 0
        [5000000000]).1._queue._queue[1 - 1]?
      ≠ some (if 1 % 2 = 1 then TrafficLightPhase.red else TrafficLightPhase.green) := by
  decide

/-- C6 (amended, raw queue output order): for a newly constructed light (initial
phase red) with a single background loop, the values pushed into the queue, read in
order, are green, red, green, red, …: the k-th pushed value (k = 1, 2, 3, …) is
green for odd k and red for even k. -/
theorem trafficLight_raw_queue_order (dist : Nat → Int) (startTime : Int)
    (clock : List Int) (k : Nat) (h1 : 1 ≤ k)
    (h2 : k ≤ (TrafficLight.cycleThroughPhases dist TrafficLight.ctor.simulate startTime
                clock).1._queue._queue.length) :
    (TrafficLight.cycleThroughPhases dist TrafficLight.ctor.simulate startTime
        clock).1._queue._queue[k - 1]?
      = some (if k % 2 = 1 then TrafficLightPhase.green else TrafficLightPhase.red) := by
  obtain ⟨n, _, hres⟩ :=
    foldl_cycleIteration dist clock (TrafficLight.ctor.simulate, cycleInit dist startTime)
  unfold TrafficLight.cycleThroughPhases at h2 ⊢
  rw [hres] at h2 ⊢
  have hq : (TrafficLight.ctor.simulate._queue._queue
      ++ alternation TrafficLight.ctor.simulate._currentPhase n)
      = alternation TrafficLightPhase.red n := rfl
  simp only [hq, alternation_length] at h2 ⊢
  rw [alternation_getElem n TrafficLightPhase.red (k - 1) (by omega)]
  rcases Nat.mod_two_eq_zero_or_one k with h0 | h0
  · have : (k - 1) % 2 = 1 := by omega
    simp [h0, this]
  · have : (k - 1) % 2 = 0 := by omega
    simp [h0, this]
    rfl

/-- Witness of C6 (amended): with cycle durations of 5000 ms and flips measured at
5000 ms and 10000 ms, the second pushed value is red. -/
theorem trafficLight_raw_queue_order_witness :
    1 ≤ 2 ∧
    2 ≤ (TrafficLight.cycleThroughPhases (fun _ => 5000) TrafficLight.ctor.simulate 0
          [5000000000, 10000000000]).1._queue._queue.length ∧
    (TrafficLight.cycleThroughPhases (fun _ => 5000) TrafficLight.ctor.simulate 0
        [5000000000, 10000000000]).1._queue._queue[2 - 1]?
      = some (if 2 % 2 = 1 then TrafficLightPhase.green else TrafficLightPhase.red) :=
  ⟨by decide, by decide,
    trafficLight_raw_queue_order (fun _ => 5000) 0 [5000000000, 10000000000] 2
      (by decide) (by decide)⟩

/-- C7 (concrete scenario): a newly constructed light on which `simulate` was called
once reads red and has an empty queue; as long as every iteration of its loop has
measured less than the first cycle duration (no flip yet) the light is unchanged and
`waitForGreen` is suspended in `receive` without having received anything; at the
first flip `waitForGreen` returns, having received exactly one value, green, and
`getCurrentPhase` read right after that return is green. -/
theorem trafficLight_concrete_scenario (dist : Nat → Int) (startTime : Int)
    (clock : List Int) (currentTime : Int)
    (hbefore : ∀ t ∈ clock, measuredElapsed t startTime < dist 0)
    (hflip : dist 0 ≤ measuredElapsed currentTime startTime) :
    TrafficLight.getCurrentPhase TrafficLight.ctor.simulate = TrafficLightPhase.red ∧
    TrafficLight.ctor.simulate._queue._queue = [] ∧
    (TrafficLight.cycleThroughPhases dist TrafficLight.ctor.simulate startTime clock).1
      = TrafficLight.ctor.simulate ∧
    TrafficLight.waitForGreen
        (TrafficLight.cycleThroughPhases dist TrafficLight.ctor.simulate startTime clock).1
      = WaitOutcome.blocked TrafficLight.ctor.simulate [] ∧
    ∃ tl1,
      TrafficLight.waitForGreen
          (TrafficLight.cycleThroughPhases dist TrafficLight.ctor.simulate startTime
            (clock ++ [currentTime])).1
        = WaitOutcome.returned tl1 [TrafficLightPhase.green] ∧
      TrafficLight.getCurrentPhase tl1 = TrafficLightPhase.green ∧
      tl1._queue._queue = [] := by
  obtain ⟨h1, _, h3, h4⟩ := foldl_cycleIteration_no_flip dist clock
    (TrafficLight.ctor.simulate, cycleInit dist startTime) hbefore
  have hrun : (TrafficLight.cycleThroughPhases dist TrafficLight.ctor.simulate startTime
      clock).1 = TrafficLight.ctor.simulate := h1
  refine ⟨rfl, rfl, hrun, by rw [hrun]; rfl, ?_⟩
  have hdue : (clock.foldl (cycleIteration dist)
        (TrafficLight.ctor.simulate, cycleInit dist startTime)).2.currentCycleDuration
      ≤ measuredElapsed currentTime
          (clock.foldl (cycleIteration dist)
            (TrafficLight.ctor.simulate, cycleInit dist startTime)).2.previousTime := by
    rw [h3, h4]
    exact hflip
  refine ⟨⟨TrafficLightPhase.green, ⟨[]⟩, 1⟩, ?_, rfl, rfl⟩
  unfold TrafficLight.cycleThroughPhases
  rw [List.foldl_append, List.foldl_cons, List.foldl_nil,
    cycleIteration_flip dist _ currentTime hdue, h1]
  rfl

/-- Witness of C7: first cycle duration 5000 ms, iterations measured at 1 ms and
4999 ms without flip, first flip measured at 5000 ms. -/
theorem trafficLight_concrete_scenario_witness :
    (∀ t ∈ [(1000000 : Int), 4999000000], measuredElapsed t 0 < (fun _ => 5000) 0) ∧
    ((fun _ => 5000) 0 : Int) ≤ measuredElapsed 5000000000 0 ∧
    (TrafficLight.getCurrentPhase TrafficLight.ctor.simulate = TrafficLightPhase.red ∧
      TrafficLight.ctor.simulate._queue._queue = [] ∧
      (TrafficLight.cycleThroughPhases (fun _ => 5000) TrafficLight.ctor.simulate 0
          [1000000, 4999000000]).1 = TrafficLight.ctor.simulate ∧
      TrafficLight.waitForGreen
          (TrafficLight.cycleThroughPhases (fun _ => 5000) TrafficLight.ctor.simulate 0
            [1000000, 4999000000]).1
        = WaitOutcome.blocked TrafficLight.ctor.simulate [] ∧
      ∃ tl1,
        TrafficLight.waitForGreen
            (TrafficLight.cycleThroughPhases (fun _ => 5000) TrafficLight.ctor.simulate 0
              ([1000000, 4999000000] ++ [5000000000])).1
          = WaitOutcome.returned tl1 [TrafficLightPhase.green] ∧
        TrafficLight.getCurrentPhase tl1 = TrafficLightPhase.green ∧
        tl1._queue._queue = []) :=
  ⟨by decide, by decide,
    trafficLight_concrete_scenario (fun _ => 5000) 0 [1000000, 4999000000] 5000000000
      (by decide) (by decide)⟩

/-- C8 (interval bound of the cycling loop): when `dist(gen)` yields integers of the
closed interval [4000, 6000], then at every iteration of the loop the cycle duration
`d` lies in [4000, 6000]; with `e` the value measured into `elapsedCycleTime`, the
iteration flips the phase and sends it if and only if `e ≥ d`, and then sets the
time reference to the measured time and redraws `d`; when `e < d` the light (phase
and queue), the time reference and `d` are unchanged.  So no iteration measured
below 4000 ms flips and every iteration measured at 6000 ms or more flips.  `e` is
the number of whole milliseconds between the two clock readings whenever that number
is not negative and fits the 32-bit `int`. -/
theorem trafficLight_interval_bound (dist : Nat → Int)
    (hdist : ∀ n, 4000 ≤ dist n ∧ dist n ≤ 6000)
    (tl : TrafficLight) (startTime : Int) (clock : List Int) (currentTime : Int) :
    (4000 ≤ (TrafficLight.cycleThroughPhases dist tl startTime clock).2.currentCycleDuration ∧
      (TrafficLight.cycleThroughPhases dist tl startTime clock).2.currentCycleDuration
        ≤ 6000) ∧
    ((TrafficLight.cycleThroughPhases dist tl startTime clock).2.currentCycleDuration
        ≤ measuredElapsed currentTime
            (TrafficLight.cycleThroughPhases dist tl startTime clock).2.previousTime ↔
      (TrafficLight.cycleThroughPhases dist tl startTime (clock ++ [currentTime])).1._currentPhase
        ≠ (TrafficLight.cycleThroughPhases dist tl startTime clock).1._currentPhase) ∧
    ((TrafficLight.cycleThroughPhases dist tl startTime clock).2.currentCycleDuration
        ≤ measuredElapsed currentTime
            (TrafficLight.cycleThroughPhases dist tl startTime clock).2.previousTime →
      (TrafficLight.cycleThroughPhases dist tl startTime (clock ++ [currentTime])).1._queue
          = MessageQueue.send
              (TrafficLight.cycleThroughPhases dist tl startTime clock).1._queue
              (TrafficLight.cycleThroughPhases dist tl startTime
                (clock ++ [currentTime])).1._currentPhase ∧
        (TrafficLight.cycleThroughPhases dist tl startTime
            (clock ++ [currentTime])).2.previousTime = currentTime ∧
        (TrafficLight.cycleThroughPhases dist tl startTime
            (clock ++ [currentTime])).2.currentCycleDuration
          = dist (TrafficLight.cycleThroughPhases dist tl startTime clock).2.gen) ∧
    (measuredElapsed currentTime
          (TrafficLight.cycleThroughPhases dist tl startTime clock).2.previousTime
        < (TrafficLight.cycleThroughPhases dist tl startTime clock).2.currentCycleDuration →
      (TrafficLight.cycleThroughPhases dist tl startTime (clock ++ [currentTime])).1
          = (TrafficLight.cycleThroughPhases dist tl startTime clock).1 ∧
        (TrafficLight.cycleThroughPhases dist tl startTime
            (clock ++ [currentTime])).2.previousTime
          = (TrafficLight.cycleThroughPhases dist tl startTime clock).2.previousTime ∧
        (TrafficLight.cycleThroughPhases dist tl startTime
            (clock ++ [currentTime])).2.currentCycleDuration
          = (TrafficLight.cycleThroughPhases dist tl startTime
              clock).2.currentCycleDuration) ∧
    (measuredElapsed currentTime
          (TrafficLight.cycleThroughPhases dist tl startTime clock).2.previousTime < 4000 →
      (TrafficLight.cycleThroughPhases dist tl startTime (clock ++ [currentTime])).1
        = (TrafficLight.cycleThroughPhases dist tl startTime clock).1) ∧
    (6000 ≤ measuredElapsed currentTime
          (TrafficLight.cycleThroughPhases dist tl startTime clock).2.previousTime →
      (TrafficLight.cycleThroughPhases dist tl startTime (clock ++ [currentTime])).1._currentPhase
        ≠ (TrafficLight.cycleThroughPhases dist tl startTime clock).1._currentPhase) ∧
    (0 ≤ currentTime
          - (TrafficLight.cycleThroughPhases dist tl startTime clock).2.previousTime →
      currentTime - (TrafficLight.cycleThroughPhases dist tl startTime clock).2.previousTime
        < 2147483648000000 →
      measuredElapsed currentTime
          (TrafficLight.cycleThroughPhases dist tl startTime clock).2.previousTime
        = (currentTime
            - (TrafficLight.cycleThroughPhases dist tl startTime clock).2.previousTime)
          / 1000000) := by
  have hstep : TrafficLight.cycleThroughPhases dist tl startTime (clock ++ [currentTime])
      = cycleIteration dist (TrafficLight.cycleThroughPhases dist tl startTime clock)
          currentTime := by
    unfold TrafficLight.cycleThroughPhases
    rw [List.foldl_append, List.foldl_cons, List.foldl_nil]
  have hd := foldl_cycleIteration_duration dist hdist clock (tl, cycleInit dist startTime)
    (hdist 0)
  have hd1 : 4000 ≤ (TrafficLight.cycleThroughPhases dist tl startTime
      clock).2.currentCycleDuration ∧
      (TrafficLight.cycleThroughPhases dist tl startTime clock).2.currentCycleDuration
        ≤ 6000 := hd
  generalize TrafficLight.cycleThroughPhases dist tl startTime clock = s at hstep hd1 ⊢
  rw [hstep]
  have hflip : s.2.currentCycleDuration ≤ measuredElapsed currentTime s.2.previousTime →
      (cycleIteration dist s currentTime).1._currentPhase ≠ s.1._currentPhase := by
    intro h
    rw [cycleIteration_flip dist s currentTime h]
    exact toggle_ne _
  have hwait : measuredElapsed currentTime s.2.previousTime < s.2.currentCycleDuration →
      (cycleIteration dist s currentTime).1 = s.1 := by
    intro h
    rw [cycleIteration_wait dist s currentTime h]
  refine ⟨hd1, ⟨hflip, ?_⟩, ?_, ?_, ?_, ?_, ?_⟩
  · intro hne
    by_contra hlt
    exact hne (by rw [hwait (not_le.mp hlt)])
  · intro h
    rw [cycleIteration_flip dist s currentTime h]
    exact ⟨rfl, rfl, rfl⟩
  · intro h
    rw [cycleIteration_wait dist s currentTime h]
    exact ⟨rfl, rfl, rfl⟩
  · intro h
    exact hwait (by omega)
  · intro h
    exact hflip (by omega)
  · intro h0 h1
    exact measuredElapsed_of_range _ _ h0 h1

/-- Witness of C8: cycle durations of 5000 ms, one iteration measured at 1 ms; the
next iteration measured at 3999 ms leaves the light unchanged, measured at 6000 ms
it changes the phase. -/
theorem trafficLight_interval_bound_witness :
    (∀ n : Nat, (4000 : Int) ≤ (fun _ => (5000 : Int)) n ∧ (fun _ => (5000 : Int)) n ≤ 6000) ∧
    measuredElapsed 3999000000
        (TrafficLight.cycleThroughPhases (fun _ => 5000) TrafficLight.ctor 0
          [1000000]).2.previousTime < 4000 ∧
    (TrafficLight.cycleThroughPhases (fun _ => 5000) TrafficLight.ctor 0
        ([1000000] ++ [3999000000])).1
      = (TrafficLight.cycleThroughPhases (fun _ => 5000) TrafficLight.ctor 0 [1000000]).1 ∧
    6000 ≤ measuredElapsed 6000000000
        (TrafficLight.cycleThroughPhases (fun _ => 5000) TrafficLight.ctor 0
          [1000000]).2.previousTime ∧
    (TrafficLight.cycleThroughPhases (fun _ => 5000) TrafficLight.ctor 0
        ([1000000] ++ [6000000000])).1._currentPhase
      ≠ (TrafficLight.cycleThroughPhases (fun _ => 5000) TrafficLight.ctor 0
          [1000000]).1._currentPhase :=
  ⟨fun _ => by simp, by decide,
    (trafficLight_interval_bound (fun _ => 5000) (fun _ => by simp) TrafficLight.ctor 0
      [1000000] 3999000000).2.2.2.2.1 (by decide),
    by decide,
    (trafficLight_interval_bound (fun _ => 5000) (fun _ => by simp) TrafficLight.ctor 0
      [1000000] 6000000000).2.2.2.2.2.1 (by decide)⟩
